import Mathlib

/-!
# GoBank JSON API: token service, auth gate and handlers

A shallow embedding of `api.go` and `storage.go`.

* Go functions returning `(T, error)` become functions into `Except String T`;
  the string is the text of `err.Error()`.
* The effects of a handler are threaded explicitly through a `World`: the calls
  made on the `http.ResponseWriter` and the contents of the database behind the
  `Storage` value shared by the server and the middleware.
* `int` is the 64-bit Go integer.
* Everything that comes from a library (`golang-jwt/jwt/v4`, `gorilla/mux`,
  `strconv`, `encoding/json`, `database/sql`) is modelled next to the place it
  is called from, and what cannot be computed here (the MAC, the clock, the
  JSON decoder of request bodies, the password check declared outside
  `api.go`/`storage.go`) is a field of `Env`.
-/

namespace GoBank

/-! ## Data model -/

/-- The account entity: the seven columns `scanIntoAccount` reads, in order
(storage.go:137-144).  The Go field types are declared outside the two source
files; identifiers and the balance are integers, the timestamp is kept as an
integer too. -/
structure Account where
  ID : Int
  FirstName : String
  LastName : String
  Number : Int
  EncryptedPassword : String
  Balance : Int
  CreatedAt : Int
deriving DecidableEq, Repr

/-- A value held in a `map[string]interface{}` filled by `encoding/json`: JSON
numbers are stored as `float64`, represented here by their exact rational
value; arrays and objects are not inspected by this program. -/
inductive JVal where
  | null
  | bool (b : Bool)
  | number (v : ℚ)
  | string (s : String)
  | composite
deriving DecidableEq

/-- The type `jwt.MapClaims`, a JSON object. -/
abbrev MapClaims := List (String × JVal)

/-- Map indexing `m[key]`: `none` is the nil interface of a missing key. -/
def MapClaims.get (m : MapClaims) (key : String) : Option JVal :=
  m.lookup key

/-- The serialised token travelling in the `x-jwt-token` header, modelled by
what `jwt.Parser.ParseUnverified` can make of it: either three base64url
segments holding a JSON header, a JSON claims object and a signature, or
anything else (wrong number of segments, bad base64, bad JSON; the empty string
of a missing header is `malformed ""`). -/
inductive TokenString where
  | malformed (raw : String)
  | compact (header : List (String × JVal)) (claims : MapClaims) (signature : String)
deriving DecidableEq

/-- The type `LoginRequest`: the decoded body of `POST /login`. -/
structure LoginRequest where
  Number : Int
  Password : String
deriving DecidableEq

/-- The values handed to `WriteJSON` by the handlers embedded here. -/
inductive Body where
  | apiError (Error : String)
  | loginResponse (Number : Int) (Token : TokenString)
  | deleted (id : Int)
  | account (a : Account)
deriving DecidableEq

/-- The part of `*http.Request` the handlers read: the method, the headers
(only token-carrying ones are used), the route variables extracted by
`gorilla/mux` and the raw body. -/
structure Request where
  Method : String
  Header : List (String × TokenString)
  Vars : List (String × String)
  Body : String
deriving DecidableEq

/-- The call `r.Header.Get(key)`: the empty string when the header is absent. -/
def Request.HeaderGet (r : Request) (key : String) : TokenString :=
  (r.Header.lookup key).getD (.malformed "")

/-- The lookup `mux.Vars(r)[key]`: the empty string when the route has no such
variable. -/
def muxVars (r : Request) (key : String) : String :=
  (r.Vars.lookup key).getD ""

/-! ## Account store (storage.go) -/

/-- The table `ACCOUNT` behind `PostgresStore.db`.  `queryErr` is the error
`db.Query` returns when the database cannot execute a statement (`none` when it
can); rows are well typed, so `rows.Scan` does not fail. -/
structure PostgresStore where
  rows : List Account
  queryErr : Option String
deriving DecidableEq

/-- The method `PostgresStore.DeleteAccount` (storage.go:84-87): run
`DELETE FROM ACCOUNT WHERE id = $1` and return the error of `db.Query`. -/
def PostgresStore.DeleteAccount (s : PostgresStore) (id : Int) : PostgresStore × Option String :=
  match s.queryErr with
  | some e => (s, some e)
  | none => ({ s with rows := s.rows.filter (fun a => a.ID != id) }, none)

/-- The method `PostgresStore.GetAccountByNumber` (storage.go:89-98). -/
def PostgresStore.GetAccountByNumber (s : PostgresStore) (number : Int) : Except String Account :=
  match s.queryErr with
  | some e => .error e
  | none =>
    match s.rows.find? (fun a => a.Number == number) with
    | some a => .ok a
    | none => .error ("account with number [" ++ toString number ++ "] not found")

/-- The method `PostgresStore.GetAccountById` (storage.go:100-109). -/
def PostgresStore.GetAccountById (s : PostgresStore) (id : Int) : Except String Account :=
  match s.queryErr with
  | some e => .error e
  | none =>
    match s.rows.find? (fun a => a.ID == id) with
    | some a => .ok a
    | none => .error ("account " ++ toString id ++ " not found")

/-- The values of the column `number serial` of the table `createAccountTable`
creates (storage.go:48): a 4-byte integer.  Every account the handlers obtain
comes out of this column through `scanIntoAccount`. -/
def fitsSerial (n : Int) : Prop :=
  -(2 : Int) ^ 31 ≤ n ∧ n < (2 : Int) ^ 31

instance (n : Int) : Decidable (fitsSerial n) := by
  unfold fitsSerial
  infer_instance

/-! ## HTTP plumbing (api.go) -/

/-- The state a handler acts on: the `WriteJSON` calls made so far on the
response writer (status passed to `WriteHeader`, value encoded), and the
store. -/
structure World where
  writes : List (Nat × Body)
  store : PostgresStore
deriving DecidableEq

/-- The type `http.HandlerFunc`. -/
abbrev HandlerFunc := World → Request → World

/-- The type `apiFunc`: a handler that also returns an error. -/
abbrev apiFunc := World → Request → World × Option String

/-- The function `WriteJSON` (api.go:157-161): set the content type, write the
status, encode the value.  Each call is recorded as one entry.  The values of
`Body` always marshal and the connection accepts the bytes, so the error
returned by `Encode` is nil. -/
def WriteJSON (w : World) (status : Nat) (v : Body) : World :=
  { w with writes := w.writes ++ [(status, v)] }

/-- The function `permissionDenied` (api.go:163-165). -/
def permissionDenied (w : World) : World :=
  WriteJSON w 403 (.apiError "permission denied")

/-- The status line the client receives: `net/http` honours the first
`WriteHeader` and sends 200 when the handler never wrote. -/
def statusCode (w : World) : Nat :=
  match w.writes with
  | [] => 200
  | (status, _) :: _ => status

/-- The function `makeHTTPHandleFunc` (api.go:240-246). -/
def makeHTTPHandleFunc (f : apiFunc) : HandlerFunc := fun w r =>
  match f w r with
  | (w1, some err) => WriteJSON w1 400 (.apiError err)
  | (w1, none) => w1

/-- Value of a non-empty string of ASCII decimal digits. -/
def parseDigits (cs : List Char) : Option Nat :=
  if cs.isEmpty then none
  else cs.foldl (fun acc c => acc.bind fun n =>
    if c.isDigit then some (n * 10 + (c.toNat - 48)) else none) (some 0)

/-- The function `strconv.Atoi`: an optional sign followed by decimal digits, in
the range of a 64-bit `int`; `none` stands for the syntax or range error. -/
def Atoi (s : String) : Option Int :=
  let (neg, ds) : Bool × List Char :=
    match s.data with
    | '-' :: t => (true, t)
    | '+' :: t => (false, t)
    | t => (false, t)
  match parseDigits ds with
  | none => none
  | some n =>
    let v : Int := if neg then -(n : Int) else (n : Int)
    if -(2 : Int) ^ 63 ≤ v ∧ v < (2 : Int) ^ 63 then some v else none

/-- The function `getID` (api.go:248-257). -/
def getID (r : Request) : Except String Int :=
  let idStr := muxVars r "id"
  match Atoi idStr with
  | none => .error ("invalid id given " ++ idStr)
  | some id => .ok id

/-! ## Environment -/

/-- What the process reads from its environment and from libraries whose
results are not computed here. -/
structure Env where
  /-- The value of `os.Getenv("JWT_SECRET")`. -/
  JWT_SECRET : String
  /-- The clock `jwt.TimeFunc().Unix()` at validation time. -/
  now : Int
  /-- The base64url text of the HMAC of the signing string
  `base64(header) + "." + base64(claims)` under a key, for the named method. -/
  hmac : String → String → List (String × JVal) → MapClaims → String
  /-- The check `MapClaims.VerifyExpiresAt` on a present `exp` value. -/
  verifyExp : JVal → Int → Bool
  /-- The check `MapClaims.VerifyIssuedAt` on a present `iat` value. -/
  verifyIat : JVal → Int → Bool
  /-- The check `MapClaims.VerifyNotBefore` on a present `nbf` value. -/
  verifyNbf : JVal → Int → Bool
  /-- The call `json.NewDecoder(r.Body).Decode(&req)` for a `LoginRequest`. -/
  decodeLoginRequest : String → Except String LoginRequest
  /-- The method `Account.ValidatePassword`, declared outside the two source
  files. -/
  ValidatePassword : Account → String → Bool
  /-- The Go comparison `account.Number != claims["accountNumber"]` between the
  field (whose type is declared outside the two source files) and the
  interface value found in the claims. -/
  numberDiffers : Int → Option JVal → Bool

/-! ## Token library (`github.com/golang-jwt/jwt/v4`) -/

/-- The signing methods the library registers, by family. -/
inductive SigningMethod where
  | HMAC (alg : String)
  | RSA (alg : String)
  | RSAPSS (alg : String)
  | ECDSA (alg : String)
  | Ed25519
  | none
deriving DecidableEq

/-- The type assertion `token.Method.(*jwt.SigningMethodHMAC)`. -/
def SigningMethod.isHMAC : SigningMethod → Bool
  | .HMAC _ => true
  | _ => false

/-- The function `jwt.GetSigningMethod`: the registered method of that name. -/
def GetSigningMethod (alg : String) : Option SigningMethod :=
  if alg ∈ ["HS256", "HS384", "HS512"] then some (.HMAC alg)
  else if alg ∈ ["RS256", "RS384", "RS512"] then some (.RSA alg)
  else if alg ∈ ["PS256", "PS384", "PS512"] then some (.RSAPSS alg)
  else if alg ∈ ["ES256", "ES384", "ES512"] then some (.ECDSA alg)
  else if alg = "EdDSA" then some .Ed25519
  else if alg = "none" then some .none
  else Option.none

/-- The type `jwt.Token`. -/
structure Token where
  Method : SigningMethod
  Header : List (String × JVal)
  Claims : MapClaims
  Signature : String
  Valid : Bool
deriving DecidableEq

/-- The method `Parser.ParseUnverified`: split, decode header and claims, look
the method up by the `alg` header.  The signature is kept for `jwtParse`. -/
def ParseUnverified : TokenString → Except String Token
  | .malformed _ => .error "token is malformed"
  | .compact header claims signature =>
    match header.lookup "alg" with
    | some (.string alg) =>
      match GetSigningMethod alg with
      | some m => .ok { Method := m, Header := header, Claims := claims,
                        Signature := signature, Valid := false }
      | Option.none => .error "signing method (alg) is unavailable."
    | _ => .error "signing method (alg) is unspecified."

/-- One registered time claim: absent passes, present is judged by the
library. -/
def verifyRegistered (check : JVal → Int → Bool) (m : MapClaims) (key : String) (now : Int) : Bool :=
  match m.get key with
  | Option.none => true
  | some v => check v now

/-- The method `MapClaims.Valid`: the `exp`, `iat` and `nbf` claims, none of
them required. -/
def MapClaims.Valid (env : Env) (m : MapClaims) : Bool :=
  verifyRegistered env.verifyExp m "exp" env.now &&
  verifyRegistered env.verifyIat m "iat" env.now &&
  verifyRegistered env.verifyNbf m "nbf" env.now

/-- The method `SigningMethod.Verify` with a `[]byte` key: an HMAC method
recomputes the MAC and compares (SHA-2 is linked into every binary that imports
`net/http`, so the hash is available); every other method rejects a `[]byte`
key. -/
def SigningMethod.Verify (env : Env) (m : SigningMethod) (header : List (String × JVal))
    (claims : MapClaims) (signature : String) (key : String) : Bool :=
  match m with
  | .HMAC alg => decide (signature = env.hmac alg key header claims)
  | _ => false

/-- The function `jwt.Parse` (`Parser.ParseWithClaims` with `MapClaims`): parse,
ask the key function for the key, validate the claims, verify the signature;
the token is marked valid and returned without error only when all pass. -/
def jwtParse (env : Env) (tokenString : TokenString) (keyFunc : Token → Except String String) :
    Except String Token :=
  match ParseUnverified tokenString with
  | .error e => .error e
  | .ok token =>
    match keyFunc token with
    | .error e => .error e
    | .ok key =>
      if MapClaims.Valid env token.Claims
          && token.Method.Verify env token.Header token.Claims token.Signature key then
        .ok { token with Valid := true }
      else .error "token is invalid"

/-- Number of low bits an integer of magnitude `a` loses in a 53-bit
significand; the first argument bounds the recursion and `a` itself is always
enough. -/
def excessBits : Nat → Nat → Nat
  | 0, _ => 0
  | fuel + 1, a => if a < 2 ^ 53 then 0 else excessBits fuel (a / 2) + 1

/-- The `float64` that `encoding/json` decodes the decimal text of an integer
into: the nearest representable value, ties to even. -/
def float64OfInt (n : Int) : Int :=
  let a := n.natAbs
  let e := excessBits a a
  if e = 0 then n
  else
    let q := a / 2 ^ e
    let r := a % 2 ^ e
    let half := 2 ^ (e - 1)
    let q1 := if half < r ∨ (r = half ∧ q % 2 = 1) then q + 1 else q
    (if n < 0 then -1 else 1) * ((q1 * 2 ^ e : Nat) : Int)

/-- The method `Token.SignedString` for `jwt.SigningMethodHS256` over integer
claims: marshal header and claims (integers travel as JSON numbers), sign.
Integer claims always marshal, the key is a `[]byte` and SHA-256 is linked in,
so none of the library's error returns is taken. -/
def SignedString (env : Env) (claims : List (String × Int)) (key : String) :
    Except String TokenString :=
  let header : List (String × JVal) := [("alg", .string "HS256"), ("typ", .string "JWT")]
  let wire : MapClaims := claims.map fun kv => (kv.1, JVal.number (float64OfInt kv.2))
  .ok (.compact header wire (env.hmac "HS256" key header wire))

/-! ## Token service (api.go) -/

/-- The key function passed to `jwt.Parse` in `validateJWT` (api.go:212-218). -/
def keyFunc (secret : String) (token : Token) : Except String String :=
  if !token.Method.isHMAC then
    .error ("Unexpected signing method: " ++
      match token.Header.lookup "alg" with
      | some (.string alg) => alg
      | _ => "<nil>")
  else .ok secret

/-- The function `validateJWT` (api.go:210-219). -/
def validateJWT (env : Env) (tokenString : TokenString) : Except String Token :=
  let secret := env.JWT_SECRET
  jwtParse env tokenString (keyFunc secret)

/-- The function `createJWT` (api.go:221-232). -/
def createJWT (env : Env) (account : Account) : Except String TokenString :=
  let claims : List (String × Int) :=
    [("expiresAt", 15000), ("accountNumber", account.Number)]
  let secret := env.JWT_SECRET
  SignedString env claims secret

/-! ## Auth gate (api.go) -/

/-- The error variable of a Go `(value, error)` result. -/
def errOf {α : Type} : Except String α → Option String
  | .error e => some e
  | .ok _ => Option.none

/-- The function `withJWTAuth` (api.go:169-208).  The `Storage` argument is the
store of the world the request runs in; the line printed to standard output is
not part of the state.  `errOf found` is the Go variable `err` as it stands
after the successful lookup, when the number comparison is made. -/
def withJWTAuth (env : Env) (handlerFunc : HandlerFunc) : HandlerFunc := fun w r =>
  let tokenString := r.HeaderGet "x-jwt-token"
  match validateJWT env tokenString with
  | .error _ => permissionDenied w
  | .ok token =>
    let w1 := if !token.Valid then permissionDenied w else w
    match getID r with
    | .error _ => permissionDenied w1
    | .ok userID =>
      let found := w1.store.GetAccountById userID
      match found with
      | .error _ => WriteJSON w1 403 (.apiError "invalid token")
      | .ok account =>
        let claims := token.Claims
        if env.numberDiffers account.Number (claims.get "accountNumber") then
          if errOf found ≠ Option.none then permissionDenied w1
          else handlerFunc w1 r
        else handlerFunc w1 r

/-! ## Handlers (api.go) -/

/-- The method `handleLogin` (api.go:42-71).  The branch for a failing
`createJWT` returns nil without writing, as in the source (api.go:61-63). -/
def handleLogin (env : Env) : apiFunc := fun w r =>
  if r.Method ≠ "POST" then (w, some ("method not allowed " ++ r.Method))
  else
    match env.decodeLoginRequest r.Body with
    | .error err => (w, some err)
    | .ok req =>
      match w.store.GetAccountByNumber req.Number with
      | .error err => (w, some err)
      | .ok acc =>
        if !env.ValidatePassword acc req.Password then (w, some "not authenticated")
        else
          match createJWT env acc with
          | .error _ => (w, Option.none)
          | .ok token => (WriteJSON w 200 (.loginResponse acc.Number token), Option.none)

/-- The method `handleDeleteAccount` (api.go:135-145). -/
def handleDeleteAccount : apiFunc := fun w r =>
  match getID r with
  | .error err => (w, some err)
  | .ok id =>
    match w.store.DeleteAccount id with
    | (s1, some err) => ({ w with store := s1 }, some err)
    | (s1, Option.none) => (WriteJSON { w with store := s1 } 200 (.deleted id), Option.none)

/-- The method `handleGetAccountByID` (api.go:95-115). -/
def handleGetAccountByID : apiFunc := fun w r =>
  if r.Method = "GET" then
    match getID r with
    | .error err => (w, some err)
    | .ok id =>
      match w.store.GetAccountById id with
      | .error err => (w, some err)
      | .ok account => (WriteJSON w 200 (.account account), Option.none)
  else if r.Method = "DELETE" then handleDeleteAccount w r
  else (w, some ("method not allowed " ++ r.Method))

/-! ## Concrete inputs used to exercise the definitions -/

/-- An environment with a toy MAC (method name and key joined by a dot), a
clock in November 2023 and a numeric comparison of account number and claim. -/
def sampleEnv : Env where
  JWT_SECRET := "s3cret"
  now := 1700000000
  hmac := fun alg key _ _ => alg ++ "." ++ key
  verifyExp := fun _ _ => false
  verifyIat := fun _ _ => false
  verifyNbf := fun _ _ => false
  decodeLoginRequest := fun body =>
    if body = "jane" then .ok ⟨1001, "pw"⟩ else .error "unexpected end of JSON input"
  ValidatePassword := fun _ pw => pw == "pw"
  numberDiffers := fun n v => decide (v ≠ some (.number n))

/-- Jane, account id 1, number 1001. -/
def jane : Account := ⟨1, "Jane", "Doe", 1001, "hash", 0, 0⟩

/-- John, account id 2, number 2002. -/
def john : Account := ⟨2, "John", "Roe", 2002, "hash", 0, 0⟩

/-- The token `createJWT` issues for Jane under `sampleEnv`. -/
def janeToken : TokenString :=
  .compact [("alg", .string "HS256"), ("typ", .string "JWT")]
    [("expiresAt", .number 15000), ("accountNumber", .number 1001)] "HS256.s3cret"

/-- A fresh response and a store holding Jane and John. -/
def sampleWorld : World := ⟨[], ⟨[jane, john], none⟩⟩

/-- Jane fetching her own account. -/
def ownRequest : Request := ⟨"GET", [("x-jwt-token", janeToken)], [("id", "1")], ""⟩

/-- Jane, with her own token, fetching John's account. -/
def crossRequest : Request := ⟨"GET", [("x-jwt-token", janeToken)], [("id", "2")], ""⟩

/-- Jane asking for an account id that is not stored. -/
def missingRequest : Request := ⟨"GET", [("x-jwt-token", janeToken)], [("id", "7")], ""⟩

/-- The token `jwt.Parse` returns for `janeToken`. -/
def janeParsed : Token :=
  { Method := .HMAC "HS256"
    Header := [("alg", .string "HS256"), ("typ", .string "JWT")]
    Claims := [("expiresAt", .number 15000), ("accountNumber", .number 1001)]
    Signature := "HS256.s3cret"
    Valid := true }

/-- Jane's claims under a header naming the `none` method, unsigned. -/
def noneToken : TokenString :=
  .compact [("alg", .string "none"), ("typ", .string "JWT")]
    [("expiresAt", .number 15000), ("accountNumber", .number 1001)] ""

/-- What `ParseUnverified` makes of `noneToken`. -/
def noneParsed : Token :=
  { Method := .none
    Header := [("alg", .string "none"), ("typ", .string "JWT")]
    Claims := [("expiresAt", .number 15000), ("accountNumber", .number 1001)]
    Signature := ""
    Valid := false }

/-- A login with Jane's number and password. -/
def loginRequest : Request := ⟨"POST", [], [], "jane"⟩

/-- A delete of account id 7, which is not stored. -/
def deleteMissing : Request := ⟨"DELETE", [("x-jwt-token", janeToken)], [("id", "7")], ""⟩

/-- A delete on the collection route `/account`, which has no id variable. -/
def deleteNoID : Request := ⟨"DELETE", [], [], ""⟩

/-! ## Lemmas on the token library and the gate -/

theorem jwtParse_valid (env : Env) (t : TokenString) (kf : Token → Except String String)
    (token : Token) (h : jwtParse env t kf = .ok token) : token.Valid = true := by
  unfold jwtParse at h
  split at h
  · cases h
  · split at h
    · cases h
    · split at h
      · cases h; rfl
      · cases h

theorem validateJWT_valid (env : Env) (t : TokenString) (token : Token)
    (h : validateJWT env t = .ok token) : token.Valid = true :=
  jwtParse_valid env t _ token h

theorem withJWTAuth_of_invalid (env : Env) (handlerFunc : HandlerFunc) (w : World) (r : Request)
    (e : String) (h : validateJWT env (r.HeaderGet "x-jwt-token") = .error e) :
    withJWTAuth env handlerFunc w r = permissionDenied w := by
  simp only [withJWTAuth, h]

theorem withJWTAuth_of_valid (env : Env) (handlerFunc : HandlerFunc) (w : World) (r : Request)
    (token : Token) (h : validateJWT env (r.HeaderGet "x-jwt-token") = .ok token) :
    withJWTAuth env handlerFunc w r =
      match getID r with
      | .error _ => permissionDenied w
      | .ok userID =>
        match w.store.GetAccountById userID with
        | .error _ => WriteJSON w 403 (.apiError "invalid token")
        | .ok _ => handlerFunc w r := by
  have hv := validateJWT_valid env _ token h
  simp only [withJWTAuth, h, hv]
  cases hid : getID r with
  | error e => simp
  | ok userID =>
    cases hacc : w.store.GetAccountById userID with
    | error e => simp [hacc]
    | ok account => simp [hacc, errOf]

theorem WriteJSON_ne (w : World) (status : Nat) (v : Body) : WriteJSON w status v ≠ w := by
  intro h
  have hlen := congrArg (fun x => x.writes.length) h
  simp [WriteJSON] at hlen

/-- Once the token validates, the id parses and the store resolves it, the gate
hands the untouched world and request to the wrapped handler, whatever the
comparison of account number and claim says. -/
theorem withJWTAuth_of_resolved (env : Env) (handlerFunc : HandlerFunc) (w : World) (r : Request)
    (token : Token) (userID : Int) (account : Account)
    (hvalid : validateJWT env (r.HeaderGet "x-jwt-token") = .ok token)
    (hid : getID r = .ok userID)
    (hacc : w.store.GetAccountById userID = .ok account) :
    withJWTAuth env handlerFunc w r = handlerFunc w r := by
  rw [withJWTAuth_of_valid env handlerFunc w r token hvalid]
  simp only [hid, hacc]

/-! ## Auth gate: claims C1, C2, C3, C10 -/

/-- C1 (evaluation at the failing input): Jane's token validates and carries
accountNumber 1001, the path id 2 parses and resolves to John's account, whose
number 2002 differs from the claim, the comparison reports the difference and no
store error occurred; the gate nevertheless writes no 403 and runs the wrapped
handler, which answers 200 with John's account. -/
theorem withJWTAuth_mismatch_reaches_handler :
    validateJWT sampleEnv (crossRequest.HeaderGet "x-jwt-token") = .ok janeParsed ∧
    getID crossRequest = .ok 2 ∧
    sampleWorld.store.GetAccountById 2 = .ok john ∧
    janeParsed.Claims.get "accountNumber" = some (.number 1001) ∧
    john.Number = 2002 ∧
    sampleEnv.numberDiffers john.Number (janeParsed.Claims.get "accountNumber") = true ∧
    withJWTAuth sampleEnv (makeHTTPHandleFunc handleGetAccountByID) sampleWorld crossRequest
      = WriteJSON sampleWorld 200 (.account john) ∧
    statusCode (withJWTAuth sampleEnv (makeHTTPHandleFunc handleGetAccountByID)
      sampleWorld crossRequest) = 200 :=
  ⟨rfl, rfl, rfl, rfl, rfl, rfl, rfl, rfl⟩

/-- C2: when the token validates, the path id parses and the id resolves to an
account whose number equals the token's accountNumber claim, the gate's result
is exactly the wrapped handler applied to the original response state and
request: the handler runs and the gate adds no write of its own. -/
theorem withJWTAuth_allows_matching (env : Env) (handlerFunc : HandlerFunc) (w : World)
    (r : Request) (token : Token) (userID : Int) (account : Account)
    (hvalid : validateJWT env (r.HeaderGet "x-jwt-token") = .ok token)
    (hid : getID r = .ok userID)
    (hacc : w.store.GetAccountById userID = .ok account)
    (_hmatch : token.Claims.get "accountNumber" = some (.number account.Number)) :
    withJWTAuth env handlerFunc w r = handlerFunc w r :=
  withJWTAuth_of_resolved env handlerFunc w r token userID account hvalid hid hacc

/-- Witness for C2: Jane fetching her own account with her own token. -/
theorem withJWTAuth_allows_matching_witness :
    validateJWT sampleEnv (ownRequest.HeaderGet "x-jwt-token") = .ok janeParsed ∧
    getID ownRequest = .ok 1 ∧
    sampleWorld.store.GetAccountById 1 = .ok jane ∧
    janeParsed.Claims.get "accountNumber" = some (.number jane.Number) ∧
    withJWTAuth sampleEnv (makeHTTPHandleFunc handleGetAccountByID) sampleWorld ownRequest
      = makeHTTPHandleFunc handleGetAccountByID sampleWorld ownRequest :=
  ⟨rfl, rfl, rfl, rfl,
    withJWTAuth_allows_matching sampleEnv (makeHTTPHandleFunc handleGetAccountByID) sampleWorld
      ownRequest janeParsed 1 jane rfl rfl rfl rfl⟩

/-- What one `WriteJSON` call leaves behind: the entry appended to the writes,
the store untouched, and on a fresh response writer the status line of the
call. -/
theorem WriteJSON_observed (w : World) (status : Nat) (v : Body) :
    (WriteJSON w status v).writes = w.writes ++ [(status, v)] ∧
    (WriteJSON w status v).store = w.store ∧
    (w.writes = [] → statusCode (WriteJSON w status v) = status) := by
  refine ⟨rfl, rfl, fun hfresh => ?_⟩
  simp only [statusCode, WriteJSON, hfresh, List.nil_append]

/-- In each of the three failure cases the gate returns the incoming state after
a single `WriteJSON` of status 403, whatever the wrapped handler is. -/
theorem withJWTAuth_denied_of_failure (env : Env) (w : World) (r : Request)
    (hfail : (∃ e, validateJWT env (r.HeaderGet "x-jwt-token") = .error e) ∨
      (∃ e, getID r = .error e) ∨
      (∃ userID e, getID r = .ok userID ∧ w.store.GetAccountById userID = .error e)) :
    ∃ msg,
      (∀ handlerFunc : HandlerFunc,
        withJWTAuth env handlerFunc w r = WriteJSON w 403 (.apiError msg)) ∧
      (((∃ e, validateJWT env (r.HeaderGet "x-jwt-token") = .error e) ∨
          (∃ e, getID r = .error e)) → msg = "permission denied") ∧
      ((∃ token, validateJWT env (r.HeaderGet "x-jwt-token") = .ok token) →
        (∃ userID e, getID r = .ok userID ∧ w.store.GetAccountById userID = .error e) →
        msg = "invalid token") := by
  cases hval : validateJWT env (r.HeaderGet "x-jwt-token") with
  | error e0 =>
    refine ⟨"permission denied", fun handlerFunc => ?_, fun _ => rfl, ?_⟩
    · exact withJWTAuth_of_invalid env handlerFunc w r e0 hval
    · rintro ⟨token, htok⟩
      cases htok
  | ok token =>
    cases hid : getID r with
    | error e1 =>
      refine ⟨"permission denied", fun handlerFunc => ?_, fun _ => rfl, ?_⟩
      · rw [withJWTAuth_of_valid env handlerFunc w r token hval]
        simp only [hid, permissionDenied]
      · rintro _ ⟨userID, e, hok, _⟩
        cases hok
    | ok userID =>
      cases hacc : w.store.GetAccountById userID with
      | error e2 =>
        refine ⟨"invalid token", fun handlerFunc => ?_, ?_, fun _ _ => rfl⟩
        · rw [withJWTAuth_of_valid env handlerFunc w r token hval]
          simp only [hid, hacc]
        · rintro (⟨e, he⟩ | ⟨e, he⟩)
          · cases he
          · cases he
      | ok account =>
        exfalso
        rcases hfail with ⟨e, he⟩ | ⟨e, he⟩ | ⟨u, e, hu, he⟩
        · rw [hval] at he; cases he
        · rw [hid] at he; cases he
        · rw [hid] at hu
          cases hu
          rw [hacc] at he
          cases he

/-- C3: the gate fails closed.  If `validateJWT` returns an error, or the path id
does not parse, or the parsed id makes `GetAccountById` return an error, then
for every wrapped handler the response holds exactly one more write than
before, of status 403 with body `{error: msg}`, the store is untouched (the
handler did not run), and on a fresh response writer the status line is 403;
`msg` is "permission denied" when validation or id parsing failed, and "invalid
token" when the token validated, the id parsed and the store lookup failed. -/
theorem withJWTAuth_fails_closed (env : Env) (w : World) (r : Request)
    (hfail : (∃ e, validateJWT env (r.HeaderGet "x-jwt-token") = .error e) ∨
      (∃ e, getID r = .error e) ∨
      (∃ userID e, getID r = .ok userID ∧ w.store.GetAccountById userID = .error e)) :
    ∃ msg,
      (∀ handlerFunc : HandlerFunc,
        (withJWTAuth env handlerFunc w r).writes = w.writes ++ [(403, .apiError msg)] ∧
        (withJWTAuth env handlerFunc w r).store = w.store ∧
        (w.writes = [] → statusCode (withJWTAuth env handlerFunc w r) = 403)) ∧
      (((∃ e, validateJWT env (r.HeaderGet "x-jwt-token") = .error e) ∨
          (∃ e, getID r = .error e)) → msg = "permission denied") ∧
      ((∃ token, validateJWT env (r.HeaderGet "x-jwt-token") = .ok token) →
        (∃ userID e, getID r = .ok userID ∧ w.store.GetAccountById userID = .error e) →
        msg = "invalid token") := by
  obtain ⟨msg, hdeny, hpd, hinv⟩ := withJWTAuth_denied_of_failure env w r hfail
  refine ⟨msg, fun handlerFunc => ?_, hpd, hinv⟩
  rw [hdeny handlerFunc]
  exact WriteJSON_observed w 403 (.apiError msg)

/-- Witness for C3: Jane's valid token with a path id that is not stored; the
store lookup fails and the answer is 403 "invalid token". -/
theorem withJWTAuth_fails_closed_witness :
    (∃ userID e, getID missingRequest = .ok userID ∧
      sampleWorld.store.GetAccountById userID = .error e) ∧
    ∃ msg,
      (∀ handlerFunc : HandlerFunc,
        (withJWTAuth sampleEnv handlerFunc sampleWorld missingRequest).writes
          = sampleWorld.writes ++ [(403, .apiError msg)] ∧
        (withJWTAuth sampleEnv handlerFunc sampleWorld missingRequest).store
          = sampleWorld.store ∧
        (sampleWorld.writes = [] →
          statusCode (withJWTAuth sampleEnv handlerFunc sampleWorld missingRequest) = 403)) ∧
      (((∃ e, validateJWT sampleEnv (missingRequest.HeaderGet "x-jwt-token") = .error e) ∨
          (∃ e, getID missingRequest = .error e)) → msg = "permission denied") ∧
      ((∃ token, validateJWT sampleEnv (missingRequest.HeaderGet "x-jwt-token") = .ok token) →
        (∃ userID e, getID missingRequest = .ok userID ∧
          sampleWorld.store.GetAccountById userID = .error e) →
        msg = "invalid token") :=
  ⟨⟨7, _, rfl, rfl⟩,
    withJWTAuth_fails_closed sampleEnv sampleWorld missingRequest
      (Or.inr (Or.inr ⟨7, _, rfl, rfl⟩))⟩

/-- C10: on every request the gate ends in exactly one of two ways.  Either, for
every wrapped handler, the result is the incoming state plus a single 403 write
(the handler is not run); or, for every wrapped handler, the result is that
handler applied once to the incoming state and request (the gate writes
nothing).  The two exclude each other, and the gate never behaves as "write a
403, then run the handler on the state so written". -/
theorem withJWTAuth_terminal (env : Env) (w : World) (r : Request) :
    ((∃ msg, ∀ handlerFunc : HandlerFunc,
        withJWTAuth env handlerFunc w r = WriteJSON w 403 (.apiError msg)) ∨
      (∀ handlerFunc : HandlerFunc, withJWTAuth env handlerFunc w r = handlerFunc w r)) ∧
    ¬ ((∃ msg, ∀ handlerFunc : HandlerFunc,
        withJWTAuth env handlerFunc w r = WriteJSON w 403 (.apiError msg)) ∧
      (∀ handlerFunc : HandlerFunc, withJWTAuth env handlerFunc w r = handlerFunc w r)) ∧
    ¬ (∃ msg, ∀ handlerFunc : HandlerFunc,
        withJWTAuth env handlerFunc w r = handlerFunc (WriteJSON w 403 (.apiError msg)) r) := by
  have hcases : (∃ msg, ∀ handlerFunc : HandlerFunc,
        withJWTAuth env handlerFunc w r = WriteJSON w 403 (.apiError msg)) ∨
      (∀ handlerFunc : HandlerFunc, withJWTAuth env handlerFunc w r = handlerFunc w r) := by
    cases hval : validateJWT env (r.HeaderGet "x-jwt-token") with
    | error e0 =>
      exact Or.inl ⟨"permission denied", fun handlerFunc =>
        withJWTAuth_of_invalid env handlerFunc w r e0 hval⟩
    | ok token =>
      cases hid : getID r with
      | error e1 =>
        refine Or.inl ⟨"permission denied", fun handlerFunc => ?_⟩
        rw [withJWTAuth_of_valid env handlerFunc w r token hval]
        simp only [hid, permissionDenied]
      | ok userID =>
        cases hacc : w.store.GetAccountById userID with
        | error e2 =>
          refine Or.inl ⟨"invalid token", fun handlerFunc => ?_⟩
          rw [withJWTAuth_of_valid env handlerFunc w r token hval]
          simp only [hid, hacc]
        | ok account =>
          exact Or.inr fun handlerFunc =>
            withJWTAuth_of_resolved env handlerFunc w r token userID account hval hid hacc
  refine ⟨hcases, ?_, ?_⟩
  · rintro ⟨⟨msg, hdeny⟩, hallow⟩
    have h1 := hdeny (fun x _ => x)
    have h2 := hallow (fun x _ => x)
    rw [h1] at h2
    exact WriteJSON_ne w 403 (.apiError msg) h2
  · rintro ⟨msg, hboth⟩
    rcases hcases with ⟨msg1, hdeny⟩ | hallow
    · have h1 := hdeny (fun _ _ => w)
      have h2 := hboth (fun _ _ => w)
      rw [h1] at h2
      exact WriteJSON_ne w 403 (.apiError msg1) h2
    · have h1 := hallow (fun x _ => x)
      have h2 := hboth (fun x _ => x)
      rw [h1] at h2
      exact WriteJSON_ne w 403 (.apiError msg) h2.symm

/-! ## Token service: claims C4, C5, C6 -/

theorem excessBits_of_lt (fuel a : Nat) (h : a < 2 ^ 53) : excessBits fuel a = 0 := by
  cases fuel with
  | zero => rfl
  | succ n => simp only [excessBits, h, if_true]

/-- The recursion bound of `excessBits` is immaterial once it is at least the
magnitude: running on `a` itself never stops early. -/
theorem excessBits_fuel (fuel1 : Nat) : ∀ (fuel2 a : Nat), a ≤ fuel1 → a ≤ fuel2 →
    excessBits fuel1 a = excessBits fuel2 a := by
  induction fuel1 with
  | zero =>
    intro fuel2 a h1 _
    have ha : a = 0 := Nat.le_zero.mp h1
    subst ha
    rw [excessBits_of_lt fuel2 0 (by norm_num)]
    rfl
  | succ n ih =>
    intro fuel2 a h1 h2
    by_cases hlt : a < 2 ^ 53
    · rw [excessBits_of_lt _ a hlt, excessBits_of_lt _ a hlt]
    · cases fuel2 with
      | zero =>
        have ha : a = 0 := Nat.le_zero.mp h2
        subst ha
        exact absurd (by norm_num) hlt
      | succ m =>
        simp only [excessBits, hlt, if_false]
        have hpos : 0 < a := by
          rcases Nat.eq_zero_or_pos a with h0 | h0
          · subst h0
            exact absurd (by norm_num) hlt
          · exact h0
        rw [ih m (a / 2) (by omega) (by omega)]

theorem float64OfInt_exact (n : Int) (h : n.natAbs < 2 ^ 53) : float64OfInt n = n := by
  simp [float64OfInt, excessBits_of_lt _ _ h]

theorem GetSigningMethod_of_HMAC (alg : String) (h : alg ∈ ["HS256", "HS384", "HS512"]) :
    GetSigningMethod alg = some (.HMAC alg) := by
  simp only [GetSigningMethod, h, if_true]

/-- A compact token with an HMAC-family header whose signature is the MAC under
`JWT_SECRET` and whose registered time claims pass is returned marked valid. -/
theorem validateJWT_of_signed (env : Env) (header : List (String × JVal)) (claims : MapClaims)
    (signature alg : String)
    (halg : header.lookup "alg" = some (.string alg))
    (hfam : alg ∈ ["HS256", "HS384", "HS512"])
    (hsig : signature = env.hmac alg env.JWT_SECRET header claims)
    (htime : MapClaims.Valid env claims = true) :
    validateJWT env (.compact header claims signature) =
      .ok { Method := .HMAC alg, Header := header, Claims := claims,
            Signature := signature, Valid := true } := by
  simp [validateJWT, jwtParse, ParseUnverified, halg, GetSigningMethod_of_HMAC alg hfam,
    keyFunc, SigningMethod.isHMAC, SigningMethod.Verify, htime, ← hsig]

/-- The claims `createJWT` writes carry none of `exp`, `iat`, `nbf`, so they
pass `MapClaims.Valid` at every time. -/
theorem createJWT_claims_valid (env : Env) (n : Int) :
    MapClaims.Valid env
      ([("expiresAt", (15000 : Int)), ("accountNumber", n)].map
        fun kv => (kv.1, JVal.number (float64OfInt kv.2))) = true := by
  simp [MapClaims.Valid, verifyRegistered, MapClaims.get, List.lookup]

/-- The function `createJWT` always returns a token: the serialisation of the
HS256 header, of the two claims as JSON numbers, and of their MAC under
`JWT_SECRET`. -/
theorem createJWT_ok (env : Env) (account : Account) :
    createJWT env account = .ok (.compact
      [("alg", .string "HS256"), ("typ", .string "JWT")]
      [("expiresAt", .number 15000),
        ("accountNumber", .number (float64OfInt account.Number))]
      (env.hmac "HS256" env.JWT_SECRET
        [("alg", .string "HS256"), ("typ", .string "JWT")]
        [("expiresAt", .number 15000),
          ("accountNumber", .number (float64OfInt account.Number))])) := by
  simp [createJWT, SignedString, float64OfInt_exact]

/-- Issue then validate, for every account number: `createJWT` returns a token,
`validateJWT` accepts it in the same environment, and its accountNumber claim
is the `float64` nearest to the account number. -/
theorem createJWT_validateJWT_float (env : Env) (account : Account) :
    ∃ tokenString token, createJWT env account = .ok tokenString ∧
      validateJWT env tokenString = .ok token ∧ token.Valid = true ∧
      token.Claims.get "accountNumber" = some (.number (float64OfInt account.Number)) := by
  refine ⟨_, _, createJWT_ok env account,
    validateJWT_of_signed env _ _ _ "HS256" rfl (by simp) rfl ?_, rfl, ?_⟩
  · have h := createJWT_claims_valid env account.Number
    simpa [float64OfInt_exact] using h
  · simp [MapClaims.get, List.lookup]

theorem natAbs_lt_of_fitsSerial (n : Int) (h : fitsSerial n) : n.natAbs < 2 ^ 53 := by
  unfold fitsSerial at h
  omega

/-- C4: for every account the store can hold (its number is a value of the
4-byte `number serial` column), `createJWT` produces a token, `validateJWT`
accepts that token under the same `JWT_SECRET` and marks it valid, and the
returned claims carry accountNumber equal to the account's number. -/
theorem createJWT_validateJWT_roundtrip (env : Env) (account : Account)
    (hcol : fitsSerial account.Number) :
    ∃ tokenString token, createJWT env account = .ok tokenString ∧
      validateJWT env tokenString = .ok token ∧ token.Valid = true ∧
      token.Claims.get "accountNumber" = some (.number account.Number) := by
  obtain ⟨tokenString, token, hissue, hok, hvalid, hclaim⟩ :=
    createJWT_validateJWT_float env account
  rw [float64OfInt_exact account.Number (natAbs_lt_of_fitsSerial _ hcol)] at hclaim
  exact ⟨tokenString, token, hissue, hok, hvalid, hclaim⟩

/-- Witness for C4: Jane's account, number 1001. -/
theorem createJWT_validateJWT_roundtrip_witness :
    fitsSerial jane.Number ∧
    ∃ tokenString token, createJWT sampleEnv jane = .ok tokenString ∧
      validateJWT sampleEnv tokenString = .ok token ∧ token.Valid = true ∧
      token.Claims.get "accountNumber" = some (.number jane.Number) :=
  ⟨by decide, createJWT_validateJWT_roundtrip sampleEnv jane (by decide)⟩

/-- Expiry is enforced through the registered `exp` claim only: a token whose
`exp` value the library rejects fails `validateJWT`, whatever else it holds. -/
theorem validateJWT_of_rejected_exp (env : Env) (header : List (String × JVal))
    (claims : MapClaims) (signature : String) (v : JVal)
    (hexp : claims.get "exp" = some v) (hrej : env.verifyExp v env.now = false) :
    ∃ e, validateJWT env (.compact header claims signature) = .error e := by
  have htime : MapClaims.Valid env claims = false := by
    simp [MapClaims.Valid, verifyRegistered, hexp, hrej]
  cases hval : validateJWT env (.compact header claims signature) with
  | error e => exact ⟨e, rfl⟩
  | ok token =>
    exfalso
    unfold validateJWT jwtParse at hval
    cases hparse : ParseUnverified (.compact header claims signature) with
    | error e => simp [hparse] at hval
    | ok t =>
      have hclaims : t.Claims = claims := by
        simp only [ParseUnverified] at hparse
        split at hparse
        · split at hparse
          · cases hparse; rfl
          · cases hparse
        · cases hparse
      cases hkey : keyFunc env.JWT_SECRET t with
      | error e => simp [hparse, hkey] at hval
      | ok key => simp [hparse, hkey, hclaims, htime] at hval

/-- C5 (counterexample): the token `createJWT` issues for Jane carries expiresAt
15000, the validation clock reads 1700000000, and `validateJWT` returns the
token without error. -/
theorem validateJWT_accepts_elapsed_expiresAt :
    createJWT sampleEnv jane = .ok janeToken ∧
    janeParsed.Claims.get "expiresAt" = some (.number 15000) ∧
    (15000 : Int) < sampleEnv.now ∧
    validateJWT sampleEnv janeToken = .ok janeParsed :=
  ⟨rfl, rfl, by decide, rfl⟩

/-- C5 (amended): `validateJWT` does not inspect expiresAt.  A token with an
HMAC-family header, a signature that is the MAC under `JWT_SECRET` and
registered time claims (`exp`, `iat`, `nbf`) that pass is returned without
error and marked valid although its expiresAt claim is a time in the past. -/
theorem validateJWT_ignores_expiresAt (env : Env) (header : List (String × JVal))
    (claims : MapClaims) (signature alg : String) (expiresAt : ℚ)
    (halg : header.lookup "alg" = some (.string alg))
    (hfam : alg ∈ ["HS256", "HS384", "HS512"])
    (hsig : signature = env.hmac alg env.JWT_SECRET header claims)
    (htime : MapClaims.Valid env claims = true)
    (_hclaim : claims.get "expiresAt" = some (.number expiresAt))
    (_hpast : expiresAt < (env.now : ℚ)) :
    ∃ token, validateJWT env (.compact header claims signature) = .ok token ∧
      token.Valid = true ∧ token.Claims = claims :=
  ⟨_, validateJWT_of_signed env header claims signature alg halg hfam hsig htime, rfl, rfl⟩

/-- Witness for C5 (amended): Jane's token, expiresAt 15000, validated at
1700000000. -/
theorem validateJWT_ignores_expiresAt_witness :
    ∃ token, validateJWT sampleEnv janeToken = .ok token ∧
      token.Valid = true ∧
      token.Claims = [("expiresAt", .number 15000), ("accountNumber", .number 1001)] :=
  validateJWT_ignores_expiresAt sampleEnv
    [("alg", .string "HS256"), ("typ", .string "JWT")]
    [("expiresAt", .number 15000), ("accountNumber", .number 1001)] "HS256.s3cret" "HS256" 15000
    rfl (by decide) rfl rfl rfl (by norm_num [sampleEnv])

/-- C6: for every token whose header names a registered signing method outside
the HMAC family, the key function of `validateJWT` returns an error and
`validateJWT` fails; and whenever the key function returns a key, the token's
method is of the HMAC family and the key is `JWT_SECRET`. -/
theorem validateJWT_rejects_non_HMAC (env : Env) (tokenString : TokenString) (token : Token)
    (hparse : ParseUnverified tokenString = .ok token)
    (hfam : token.Method.isHMAC = false) :
    (∃ e, keyFunc env.JWT_SECRET token = .error e) ∧
    (∃ e, validateJWT env tokenString = .error e) ∧
    (∀ (t : Token) (key : String), keyFunc env.JWT_SECRET t = .ok key →
      t.Method.isHMAC = true ∧ key = env.JWT_SECRET) := by
  refine ⟨?_, ?_, ?_⟩
  · simp [keyFunc, hfam]
  · simp [validateJWT, jwtParse, hparse, keyFunc, hfam]
  · intro t key hkey
    unfold keyFunc at hkey
    cases hm : t.Method.isHMAC with
    | false => simp [hm] at hkey
    | true =>
      simp only [hm, Bool.not_true] at hkey
      cases hkey
      exact ⟨rfl, rfl⟩

/-- Witness for C6: Jane's claims under a header naming `none`. -/
theorem validateJWT_rejects_non_HMAC_witness :
    ParseUnverified noneToken = .ok noneParsed ∧ noneParsed.Method.isHMAC = false ∧
    (∃ e, keyFunc sampleEnv.JWT_SECRET noneParsed = .error e) ∧
    (∃ e, validateJWT sampleEnv noneToken = .error e) ∧
    (∀ (t : Token) (key : String), keyFunc sampleEnv.JWT_SECRET t = .ok key →
      t.Method.isHMAC = true ∧ key = sampleEnv.JWT_SECRET) :=
  ⟨rfl, rfl, validateJWT_rejects_non_HMAC sampleEnv noneToken noneParsed rfl rfl⟩

/-! ## Handlers: claims C7, C8, C9 -/

/-- C7: if the handler returns a non-nil error, the wrapper's only addition to
what the handler left behind is one write of status 400 with body
`{error: <message>}`; if the handler returns nil, the wrapper adds nothing. -/
theorem makeHTTPHandleFunc_error_envelope (f : apiFunc) (w : World) (r : Request) (w1 : World)
    (e : Option String) (hf : f w r = (w1, e)) :
    (∀ err, e = some err →
      makeHTTPHandleFunc f w r = WriteJSON w1 400 (.apiError err) ∧
      (makeHTTPHandleFunc f w r).writes = w1.writes ++ [(400, .apiError err)] ∧
      (makeHTTPHandleFunc f w r).store = w1.store) ∧
    (e = none → makeHTTPHandleFunc f w r = w1) := by
  constructor
  · intro err he
    subst he
    simp only [makeHTTPHandleFunc, hf, WriteJSON, and_self]
  · intro he
    subst he
    simp only [makeHTTPHandleFunc, hf]

/-- Witness for C7: a delete on the collection route fails in `getID`, and the
wrapper answers 400 with that error. -/
theorem makeHTTPHandleFunc_error_envelope_witness :
    handleDeleteAccount sampleWorld deleteNoID = (sampleWorld, some "invalid id given ") ∧
    (∀ err, some "invalid id given " = some err →
      makeHTTPHandleFunc handleDeleteAccount sampleWorld deleteNoID
        = WriteJSON sampleWorld 400 (.apiError err) ∧
      (makeHTTPHandleFunc handleDeleteAccount sampleWorld deleteNoID).writes
        = sampleWorld.writes ++ [(400, .apiError err)] ∧
      (makeHTTPHandleFunc handleDeleteAccount sampleWorld deleteNoID).store
        = sampleWorld.store) ∧
    (some "invalid id given " = none →
      makeHTTPHandleFunc handleDeleteAccount sampleWorld deleteNoID = sampleWorld) :=
  ⟨rfl, makeHTTPHandleFunc_error_envelope handleDeleteAccount sampleWorld deleteNoID sampleWorld
    (some "invalid id given ") rfl⟩

/-- C8: every request to the login endpoint leaves the store untouched and ends
in exactly one of two responses.  When the method is POST, the body decodes,
the account is found by number and the password verifies, the token is issued
and the one write added is status 200 with body `{number, token}`, the number
being the looked-up account's and the token the one `createJWT` issued for that
account.  In every other case the one write added is status 400 with body
`{error}`.  On a fresh response writer the status line is 200, respectively
400, and the two responses exclude each other. -/
theorem handleLogin_responses (env : Env) (w : World) (r : Request) :
    (makeHTTPHandleFunc (handleLogin env) w r).store = w.store ∧
    ((∃ req acc token, r.Method = "POST" ∧ env.decodeLoginRequest r.Body = .ok req ∧
        w.store.GetAccountByNumber req.Number = .ok acc ∧
        env.ValidatePassword acc req.Password = true ∧ createJWT env acc = .ok token ∧
        (makeHTTPHandleFunc (handleLogin env) w r).writes
          = w.writes ++ [(200, .loginResponse acc.Number token)] ∧
        (w.writes = [] → statusCode (makeHTTPHandleFunc (handleLogin env) w r) = 200)) ∨
      (¬ (∃ req acc, r.Method = "POST" ∧ env.decodeLoginRequest r.Body = .ok req ∧
          w.store.GetAccountByNumber req.Number = .ok acc ∧
          env.ValidatePassword acc req.Password = true) ∧
        ∃ err, (makeHTTPHandleFunc (handleLogin env) w r).writes
            = w.writes ++ [(400, .apiError err)] ∧
          (w.writes = [] → statusCode (makeHTTPHandleFunc (handleLogin env) w r) = 400))) ∧
    ¬ ((∃ number token, (makeHTTPHandleFunc (handleLogin env) w r).writes
          = w.writes ++ [(200, .loginResponse number token)]) ∧
      (∃ err, (makeHTTPHandleFunc (handleLogin env) w r).writes
          = w.writes ++ [(400, .apiError err)])) := by
  have hexcl : ¬ ((∃ number token, (makeHTTPHandleFunc (handleLogin env) w r).writes
          = w.writes ++ [(200, .loginResponse number token)]) ∧
      (∃ err, (makeHTTPHandleFunc (handleLogin env) w r).writes
          = w.writes ++ [(400, .apiError err)])) := by
    rintro ⟨⟨number, token, h200⟩, ⟨err, h400⟩⟩
    rw [h200] at h400
    have hlast := List.append_cancel_left h400
    simp at hlast
  by_cases hm : r.Method = "POST"
  · cases hdec : env.decodeLoginRequest r.Body with
    | error e =>
      have hout : makeHTTPHandleFunc (handleLogin env) w r = WriteJSON w 400 (.apiError e) := by
        simp [makeHTTPHandleFunc, handleLogin, hm, hdec]
      rw [hout] at hexcl ⊢
      refine ⟨rfl, Or.inr ⟨?_, e, rfl, (WriteJSON_observed w 400 _).2.2⟩, hexcl⟩
      rintro ⟨req, acc, _, hd, _⟩
      cases hd
    | ok req =>
      cases hacc : w.store.GetAccountByNumber req.Number with
      | error e =>
        have hout : makeHTTPHandleFunc (handleLogin env) w r
            = WriteJSON w 400 (.apiError e) := by
          simp [makeHTTPHandleFunc, handleLogin, hm, hdec, hacc]
        rw [hout] at hexcl ⊢
        refine ⟨rfl, Or.inr ⟨?_, e, rfl, (WriteJSON_observed w 400 _).2.2⟩, hexcl⟩
        rintro ⟨req1, acc, _, hd, ha, _⟩
        cases hd
        rw [hacc] at ha
        cases ha
      | ok acc =>
        cases hpw : env.ValidatePassword acc req.Password with
        | false =>
          have hout : makeHTTPHandleFunc (handleLogin env) w r
              = WriteJSON w 400 (.apiError "not authenticated") := by
            simp [makeHTTPHandleFunc, handleLogin, hm, hdec, hacc, hpw]
          rw [hout] at hexcl ⊢
          refine ⟨rfl, Or.inr ⟨?_, _, rfl, (WriteJSON_observed w 400 _).2.2⟩, hexcl⟩
          rintro ⟨req1, acc1, _, hd, ha, hp⟩
          cases hd
          rw [hacc] at ha
          cases ha
          rw [hpw] at hp
          cases hp
        | true =>
          obtain ⟨token, htok⟩ : ∃ t, createJWT env acc = .ok t := ⟨_, createJWT_ok env acc⟩
          have hout : makeHTTPHandleFunc (handleLogin env) w r
              = WriteJSON w 200 (.loginResponse acc.Number token) := by
            simp [makeHTTPHandleFunc, handleLogin, hm, hdec, hacc, hpw, htok]
          rw [hout] at hexcl ⊢
          exact ⟨rfl, Or.inl ⟨req, acc, token, hm, rfl, hacc, hpw, htok, rfl,
            (WriteJSON_observed w 200 _).2.2⟩, hexcl⟩
  · have hout : makeHTTPHandleFunc (handleLogin env) w r
        = WriteJSON w 400 (.apiError ("method not allowed " ++ r.Method)) := by
      simp [makeHTTPHandleFunc, handleLogin, hm]
    rw [hout] at hexcl ⊢
    refine ⟨rfl, Or.inr ⟨?_, _, rfl, (WriteJSON_observed w 400 _).2.2⟩, hexcl⟩
    rintro ⟨req, acc, hpost, _⟩
    exact hm hpost

/-- Jane logging in with her number and password receives 200 with her number
and the token `createJWT` issues for her. -/
theorem handleLogin_sample :
    makeHTTPHandleFunc (handleLogin sampleEnv) sampleWorld loginRequest
      = WriteJSON sampleWorld 200 (.loginResponse 1001 janeToken) :=
  rfl

theorem DeleteAccount_of_missing (s : PostgresStore) (id : Int)
    (hmissing : ∀ a ∈ s.rows, a.ID ≠ id) (hdb : s.queryErr = none) :
    s.DeleteAccount id = (s, none) := by
  have hfilter : s.rows.filter (fun a => a.ID != id) = s.rows := by
    rw [List.filter_eq_self]
    intro a ha
    simpa using hmissing a ha
  cases s with
  | mk rows queryErr =>
    simp only at hdb hfilter
    subst hdb
    simp only [PostgresStore.DeleteAccount, hfilter]

/-- C9 (counterexample): id 7 is not the id of a stored account, the delete
request for it produces no store error, and the response is 200 with body
`{deleted: 7}`. -/
theorem deleteMissing_answers_200 :
    getID deleteMissing = .ok 7 ∧
    (∀ a ∈ sampleWorld.store.rows, a.ID ≠ 7) ∧
    sampleWorld.store.DeleteAccount 7 = (sampleWorld.store, none) ∧
    makeHTTPHandleFunc handleDeleteAccount sampleWorld deleteMissing
      = WriteJSON sampleWorld 200 (.deleted 7) ∧
    statusCode (makeHTTPHandleFunc handleDeleteAccount sampleWorld deleteMissing) = 200 :=
  ⟨rfl, by decide, rfl, rfl, rfl⟩

/-- C9 (amended): for every store state and every id that is not the id of a
stored account, a delete request for that id leaves the store as it is and is
answered 200 with body `{deleted: id}` when the database executes the
statement; the only store error it can surface as 400 is the database's own
failure to execute it. -/
theorem handleDeleteAccount_missing (w : World) (r : Request) (id : Int)
    (hid : getID r = .ok id)
    (hmissing : ∀ a ∈ w.store.rows, a.ID ≠ id) :
    (w.store.queryErr = none →
      makeHTTPHandleFunc handleDeleteAccount w r = WriteJSON w 200 (.deleted id)) ∧
    (∀ e, w.store.queryErr = some e →
      makeHTTPHandleFunc handleDeleteAccount w r = WriteJSON w 400 (.apiError e)) := by
  constructor
  · intro hdb
    simp only [makeHTTPHandleFunc, handleDeleteAccount, hid,
      DeleteAccount_of_missing w.store id hmissing hdb]
  · intro e hdb
    simp only [makeHTTPHandleFunc, handleDeleteAccount, hid, PostgresStore.DeleteAccount, hdb]

/-- Witness for C9 (amended): deleting id 7 from the store of Jane and John. -/
theorem handleDeleteAccount_missing_witness :
    getID deleteMissing = .ok 7 ∧
    (∀ a ∈ sampleWorld.store.rows, a.ID ≠ 7) ∧
    (sampleWorld.store.queryErr = none →
      makeHTTPHandleFunc handleDeleteAccount sampleWorld deleteMissing
        = WriteJSON sampleWorld 200 (.deleted 7)) ∧
    (∀ e, sampleWorld.store.queryErr = some e →
      makeHTTPHandleFunc handleDeleteAccount sampleWorld deleteMissing
        = WriteJSON sampleWorld 400 (.apiError e)) :=
  ⟨rfl, by decide, handleDeleteAccount_missing sampleWorld deleteMissing 7 rfl (by decide)⟩

end GoBank
